import Mathlib

/-!
# Pomodoro countdown: a shallow embedding of `src/main.go`

The program is a Bubble Tea application: a value of type `model` is threaded through
`model.Update`, which receives one message at a time and returns the next model together
with a command.  A command is a deferred computation whose result is delivered to `Update`
as a later message.

Correspondence with the vocabulary of the specification:

* phase                 is `model.mode`
* remaining             is `model.timer.Timeout`
* running               is `model.timer.running`
* completedFocusBouts   is `model.completed`
* totalCompleted        is `model.total`

Modelling conventions.

* `time.Duration` is an `int64` count of nanoseconds and the two counters are Go `int`s,
  64 bits wide on a 64 bit platform.  They are embedded as `Int`; the two increments of
  the counters and the decrement of the timer go through `wrap64`, which gives the
  result of the machine operation.  The divisions and the subtraction in `fmtDuration`
  stay within the range of their argument.
* `tea.Msg` is an interface.  The embedding lists the dynamic types that `Update`
  dispatches on and collects every other message in `Msg.other`.
* `tea.Cmd` is a function value.  The embedding records which message the command
  delivers when the runtime runs it.
* The fields `help` of `model` and the help texts of the key bindings are only read by
  `View`; they are left out.
* The package `github.com/charmbracelet/bubbles/timer` (imported on line 10 of
  `src/main.go`) and the two functions of `bubbles/key` that `Update` calls are library
  code that is not part of the repository.  They are embedded in the namespaces `timer`
  and `key` below, following the published library source.
-/

namespace Pomodoro

/-! ## Durations and the phase table -/

/-- Go `time.Duration`: a signed number of nanoseconds. -/
abbrev Duration := Int

/-- Go `math.MaxInt64`, the largest value of an `int64` and of an `int`. -/
def MaxInt64 : Int := 9223372036854775807

/-- Go `math.MinInt64`, the smallest value of an `int64` and of an `int`. -/
def MinInt64 : Int := -9223372036854775808

/-- The result of 64 bit signed arithmetic: the value in the range from `MinInt64` to
`MaxInt64` that differs from `x` by a multiple of `2 ^ 64`. -/
def wrap64 (x : Int) : Int :=
  (x + 9223372036854775808) % 18446744073709551616 - 9223372036854775808

/-- Go `time.Second`. -/
def Second : Duration := 1000000000

/-- Go `time.Minute`. -/
def Minute : Duration := 60 * Second

/-- The type `TimerMode` of `src/main.go` (lines 18 to 24), an `iota` enumeration. -/
inductive TimerMode where
  | FocusMode
  | ShortBreakMode
  | LongBreakMode
deriving DecidableEq, Repr

open TimerMode

/-- The slice `timers` of `src/main.go` (line 15), indexed by the three modes. -/
def timers : TimerMode → Duration
  | FocusMode => 45 * Minute
  | ShortBreakMode => 5 * Minute
  | LongBreakMode => 15 * Minute

/-! ## Messages and commands -/

/-- The messages `Update` can receive.  `KeyMsg` carries the result of `msg.String()`. -/
inductive Msg where
  | TickMsg (ID : Int) (Timeout : Bool) (tag : Int)
  | StartStopMsg (ID : Int) (running : Bool)
  | TimeoutMsg (ID : Int)
  | KeyMsg (keys : String)
  | other
deriving DecidableEq, Repr

/-- The commands `Update` can return: `nil`, `tea.Quit`, a function that returns a message
at once, `tea.Tick d` returning a message after the delay `d`, and `tea.Batch` of two. -/
inductive Cmd where
  | nil
  | Quit
  | emit (msg : Msg)
  | Tick (d : Duration) (msg : Msg)
  | Batch (a b : Cmd)
deriving DecidableEq, Repr

/-- The messages that running a command delivers to `Update`. -/
def Cmd.msgs : Cmd → List Msg
  | Cmd.nil => []
  | Cmd.Quit => []
  | Cmd.emit msg => [msg]
  | Cmd.Tick _ msg => [msg]
  | Cmd.Batch a b => a.msgs ++ b.msgs

/-- Whether a message is the countdown expiry message `timer.TimeoutMsg`. -/
def Msg.isTimeout : Msg → Bool
  | Msg.TimeoutMsg _ => true
  | _ => false

/-!
## The library package `bubbles/key`

A binding is a list of keys with a `disabled` flag.  A key list built by `key.WithKeys`
is never `nil`; `Enabled` tests the list for emptiness where the library tests for `nil`,
which makes no difference to `Matches`, since an empty list matches no key.
-/

namespace key

/-- The type `key.Binding`: the keys of the binding and its `disabled` flag. -/
structure Binding where
  keys : List String
  disabled : Bool
deriving DecidableEq, Repr

/-- The function `key.NewBinding(key.WithKeys(...))`. -/
def NewBinding (keys : List String) : Binding :=
  { keys := keys, disabled := false }

/-- The method `Binding.SetEnabled`. -/
def Binding.SetEnabled (b : Binding) (v : Bool) : Binding :=
  { b with disabled := !v }

/-- The method `Binding.Enabled`. -/
def Binding.Enabled (b : Binding) : Bool :=
  !b.disabled && !b.keys.isEmpty

/-- The function `key.Matches`: some binding is enabled and lists the pressed key. -/
def Matches (k : String) (bs : List Binding) : Bool :=
  bs.any (fun b => b.keys.any (fun v => k == v && b.Enabled))

end key

/-!
## The library package `bubbles/timer`

`Start`, `Stop` and `Toggle` do not write the receiver: each returns a command that
delivers a `StartStopMsg`, and the flag `running` is written when `Model.Update` handles
that message.  `src/main.go` is written against this behaviour: `model.Init` (a value
receiver) stops the freshly built timer by returning `m.timer.Stop()`, and the
`timer.StartStopMsg` branch of `model.Update` forwards the message to the timer and then
brings the key bindings in line with `Running()`.  The field `tag` is compared by
`Model.Update` and never written.
-/

namespace timer

/-- The type `timer.Model`. -/
structure Model where
  Timeout : Duration
  Interval : Duration
  id : Int
  tag : Int
  running : Bool
deriving DecidableEq, Repr

/-- The function `timer.NewWithInterval`; `id` is the value drawn from `nextID()`. -/
def NewWithInterval (timeout interval : Duration) (id : Int) : Model :=
  { Timeout := timeout, Interval := interval, id := id, tag := 0, running := true }

/-- The method `Model.Timedout`. -/
def Model.Timedout (m : Model) : Bool :=
  decide (m.Timeout ≤ 0)

/-- The method `Model.Running`. -/
def Model.Running (m : Model) : Bool :=
  if m.Timedout || !m.running then false else true

/-- The method `Model.tick`. -/
def Model.tick (m : Model) : Cmd :=
  Cmd.Tick m.Interval (Msg.TickMsg m.id m.Timedout m.tag)

/-- The method `Model.timedout`. -/
def Model.timedout (m : Model) : Cmd :=
  if !m.Timedout then Cmd.nil else Cmd.emit (Msg.TimeoutMsg m.id)

/-- The method `Model.startStop`. -/
def Model.startStop (m : Model) (v : Bool) : Cmd :=
  Cmd.emit (Msg.StartStopMsg m.id v)

/-- The method `Model.Stop`: it returns a command and leaves the receiver as it is. -/
def Model.Stop (m : Model) : Cmd :=
  m.startStop false

/-- The method `Model.Toggle`: it returns a command and leaves the receiver as it is. -/
def Model.Toggle (m : Model) : Cmd :=
  m.startStop (!m.Running)

/-- The method `Model.Update` of the timer. -/
def Model.Update (m : Model) (msg : Msg) : Model × Cmd :=
  match msg with
  | Msg.StartStopMsg ID running =>
    if ID ≠ 0 ∧ ID ≠ m.id then (m, Cmd.nil)
    else
      let m := { m with running := running }
      (m, m.tick)
  | Msg.TickMsg ID _ tag =>
    if !m.Running || (ID ≠ 0 ∧ ID ≠ m.id) then (m, Cmd.nil)
    else if tag > 0 ∧ tag ≠ m.tag then (m, Cmd.nil)
    else
      let m := { m with Timeout := wrap64 (m.Timeout - m.Interval) }
      (m, Cmd.Batch m.tick m.timedout)
  | _ => (m, Cmd.nil)

end timer

/-! ## The program: `src/main.go` -/

/-- The type `keymap` of `src/main.go` (lines 36 to 41). -/
structure keymap where
  start : key.Binding
  stop : key.Binding
  reset : key.Binding
  quit : key.Binding
deriving DecidableEq, Repr

/-- The type `model` of `src/main.go` (lines 26 to 34). -/
structure model where
  total : Int
  completed : Int
  mode : TimerMode
  timer : timer.Model
  keymap : keymap
  quitting : Bool
deriving DecidableEq, Repr

/-- The method `model.Init` (lines 43 to 45). -/
def model.Init (m : model) : Cmd :=
  m.timer.Stop

/-- The method `model.Update` (lines 47 to 95). -/
def model.Update (m : model) (msg : Msg) : model × Cmd :=
  match msg with
  | Msg.TickMsg _ _ _ =>
    let r := m.timer.Update msg
    let m := { m with timer := r.1 }
    (m, r.2)
  | Msg.StartStopMsg _ _ =>
    let r := m.timer.Update msg
    let m := { m with timer := r.1 }
    let m := { m with keymap := { m.keymap with stop := m.keymap.stop.SetEnabled m.timer.Running } }
    let m := { m with keymap := { m.keymap with start := m.keymap.start.SetEnabled (!m.timer.Running) } }
    (m, r.2)
  | Msg.TimeoutMsg _ =>
    let m :=
      if m.mode = FocusMode then
        let m := { m with completed := wrap64 (m.completed + 1) }
        let m := { m with total := wrap64 (m.total + 1) }
        if m.completed > (3 : Int) then
          let m := { m with mode := LongBreakMode }
          { m with completed := 0 }
        else
          { m with mode := ShortBreakMode }
      else
        { m with mode := FocusMode }
    let m := { m with timer := { m.timer with Timeout := timers m.mode } }
    let m := { m with keymap := { m.keymap with stop := m.keymap.stop.SetEnabled m.timer.Running } }
    let m := { m with keymap := { m.keymap with start := m.keymap.start.SetEnabled (!m.timer.Running) } }
    (m, m.timer.Stop)
  | Msg.KeyMsg k =>
    if key.Matches k [m.keymap.quit] then
      let m := { m with quitting := true }
      (m, Cmd.Quit)
    else if key.Matches k [m.keymap.reset] then
      let m := { m with timer := { m.timer with Timeout := timers m.mode } }
      (m, Cmd.nil)
    else if key.Matches k [m.keymap.start, m.keymap.stop] then
      (m, m.timer.Toggle)
    else
      (m, Cmd.nil)
  | Msg.other => (m, Cmd.nil)

/-- The format verb `%02d` of `fmt.Sprintf` applied to an integer: the decimal digits of
the absolute value, padded on the left with zeros up to the precision, which is the width
two, or one when a minus sign takes a column. -/
def Sprintf02d (i : Int) : String :=
  let digits := Nat.toDigits 10 i.natAbs
  if i < 0 then String.mk ('-' :: (List.replicate (1 - digits.length) '0' ++ digits))
  else String.mk (List.replicate (2 - digits.length) '0' ++ digits)

/-- The function `fmtDuration` (lines 131 to 137). -/
def fmtDuration (d : Duration) : String :=
  let m := Int.tdiv d Minute
  let d := d - m * Minute
  let s := Int.tdiv d Second
  Sprintf02d m ++ ":" ++ Sprintf02d s

/-- The model built in `main` (lines 141 to 163); the timer draws the first identifier. -/
def initialModel : model :=
  let m : model :=
    { total := 0
      completed := 0
      mode := FocusMode
      timer := timer.NewWithInterval (timers FocusMode) Second 1
      keymap :=
        { start := key.NewBinding ["s"]
          stop := key.NewBinding ["s"]
          reset := key.NewBinding ["r"]
          quit := key.NewBinding ["q", "ctrl+c"] }
      quitting := false }
  { m with keymap := { m.keymap with stop := m.keymap.stop.SetEnabled false } }

/-! ## Definitions used to state the properties -/

/-- The decimal digits of `k`, padded on the left with zeros to at least `width` digits. -/
def zeroPadded (width k : Nat) : String :=
  String.mk (List.replicate (width - (Nat.toDigits 10 k).length) '0' ++ Nat.toDigits 10 k)

/-- The rendering of the remaining time in the words of the specification: with `n` the
number of whole seconds, `n / 60` and `n % 60`, zero-padded, separated by a colon. -/
def specFormat (d : Duration) : String :=
  zeroPadded 2 (d.toNat / 1000000000 / 60) ++ ":" ++ zeroPadded 2 (d.toNat / 1000000000 % 60)

/-- One countdown expiry: the model after `Update` has handled the `timer.TimeoutMsg` of
the model's own timer. -/
def expire (m : model) : model :=
  (m.Update (Msg.TimeoutMsg m.timer.id)).1

/-- The model after `n` consecutive countdown expiries. -/
def expiries : Nat → model → model
  | 0, m => m
  | n + 1, m => expire (expiries n m)

/-- The model after `Update` has handled the messages of a list, first to last. -/
def run (m : model) (msgs : List Msg) : model :=
  msgs.foldl (fun s msg => (s.Update msg).1) m

/-- The model after launch and a press of "s": the stop message of `Init` has been
handled, then the key "s", then the start message that the toggle command delivers. -/
def started : model :=
  run initialModel [Msg.StartStopMsg 1 false, Msg.KeyMsg "s", Msg.StartStopMsg 1 true]

/-- A running Focus countdown with one second left. -/
def lastSecond : model :=
  { started with timer := { started.timer with Timeout := Second } }

/-- The model returned by the tick that brings a running Focus countdown to zero. -/
def atZero : model :=
  (lastSecond.Update (Msg.TickMsg 1 false 0)).1

/-- The model after launch, a press of "s", one tick and a press of "q". -/
def afterQuit : model :=
  run started [Msg.TickMsg 1 false 0, Msg.KeyMsg "q"]

/-- The model built by `main` with `total` at the largest value of an `int`. -/
def totalAtMax : model :=
  { initialModel with total := MaxInt64 }

/-- The model built by `main` with `completed` at the largest value of an `int`. -/
def completedAtMax : model :=
  { initialModel with completed := MaxInt64 }

/-- The relation between phase and counters that every step of `Update` preserves. -/
def CounterInvariant (m : model) : Prop :=
  m.completed = m.total % 4 ∧
  (m.mode = ShortBreakMode → 1 ≤ m.completed) ∧
  (m.mode = LongBreakMode → m.completed = 0)

/-- The bound on `total` that holds while at most `n` expiries have been handled: `total`
has not wrapped, and it is positive in phase LongBreak. -/
def TotalWithin (n : Int) (m : model) : Prop :=
  0 ≤ m.total ∧ m.total ≤ n ∧ (m.mode = LongBreakMode → 0 < m.total)

instance (m : model) : Decidable (CounterInvariant m) := by
  unfold CounterInvariant
  infer_instance

instance (n : Int) (m : model) : Decidable (TotalWithin n m) := by
  unfold TotalWithin
  infer_instance

/-! ## Theorems -/

/-! ## Expiry: the phase transition -/

/-- Within the 64 bit range `wrap64` is the identity. -/
theorem wrap64_of_range (x : Int) (h1 : MinInt64 ≤ x) (h2 : x ≤ MaxInt64) : wrap64 x = x := by
  unfold MinInt64 at h1
  unfold MaxInt64 at h2
  unfold wrap64
  omega

/-- Below the largest value the machine increment is the increment. -/
theorem wrap64_succ (x : Int) (h1 : MinInt64 ≤ x) (h2 : x < MaxInt64) :
    wrap64 (x + 1) = x + 1 := by
  unfold MinInt64 at h1
  unfold MaxInt64 at h2
  unfold wrap64
  omega

/-- The timer after an expiry step is the old timer with `Timeout` replaced, and the
command of the step is the stop command of the timer. -/
theorem expiry_timer (m : model) (ID : Int) :
    (m.Update (Msg.TimeoutMsg ID)).1.timer =
      { m.timer with Timeout := timers (m.Update (Msg.TimeoutMsg ID)).1.mode } ∧
    (m.Update (Msg.TimeoutMsg ID)).2 = Cmd.emit (Msg.StartStopMsg m.timer.id false) := by
  by_cases hm : m.mode = FocusMode
  · by_cases hc : wrap64 (m.completed + 1) > 3
    · simp [model.Update, hm, hc, timer.Model.Stop, timer.Model.startStop]
    · simp [model.Update, hm, hc, timer.Model.Stop, timer.Model.startStop]
  · simp [model.Update, hm, timer.Model.Stop, timer.Model.startStop]

/-- C1, as stated, fails at the largest value of a counter: in phase Focus with
`total = MaxInt64` an expiry leaves `total = MinInt64`, which is not `total + 1`; in phase
Focus with `completed = MaxInt64`, where `completed + 1 > 3`, an expiry leads to ShortBreak
with `completed = MinInt64` and 5 minutes. -/
theorem focus_expiry_at_max :
    totalAtMax.mode = FocusMode ∧
    (totalAtMax.Update (Msg.TimeoutMsg 1)).1.total = MinInt64 ∧
    (totalAtMax.Update (Msg.TimeoutMsg 1)).1.total ≠ totalAtMax.total + 1 ∧
    completedAtMax.mode = FocusMode ∧
    completedAtMax.completed + 1 > 3 ∧
    (completedAtMax.Update (Msg.TimeoutMsg 1)).1.mode = ShortBreakMode ∧
    (completedAtMax.Update (Msg.TimeoutMsg 1)).1.completed = MinInt64 ∧
    (completedAtMax.Update (Msg.TimeoutMsg 1)).1.timer.Timeout = 5 * Minute := by
  decide

/-- C1, amended: when the phase is Focus and both counters are `int` values below
`MaxInt64`, handling `timer.TimeoutMsg` adds one to `total`; with `completed + 1 > 3` the
new phase is LongBreak and `completed` becomes 0, otherwise the new phase is ShortBreak
and `completed` is incremented; in both cases `Timeout` becomes the nominal duration of
the new phase (15 minutes, respectively 5 minutes). -/
theorem focus_expiry (m : model) (ID : Int) (h : m.mode = FocusMode)
    (hc1 : MinInt64 ≤ m.completed) (hc2 : m.completed < MaxInt64)
    (ht1 : MinInt64 ≤ m.total) (ht2 : m.total < MaxInt64) :
    (m.Update (Msg.TimeoutMsg ID)).1.total = m.total + 1 ∧
    (m.completed + 1 > 3 →
      (m.Update (Msg.TimeoutMsg ID)).1.mode = LongBreakMode ∧
      (m.Update (Msg.TimeoutMsg ID)).1.completed = 0 ∧
      (m.Update (Msg.TimeoutMsg ID)).1.timer.Timeout = 15 * Minute) ∧
    (¬ m.completed + 1 > 3 →
      (m.Update (Msg.TimeoutMsg ID)).1.mode = ShortBreakMode ∧
      (m.Update (Msg.TimeoutMsg ID)).1.completed = m.completed + 1 ∧
      (m.Update (Msg.TimeoutMsg ID)).1.timer.Timeout = 5 * Minute) ∧
    (m.Update (Msg.TimeoutMsg ID)).1.timer.Timeout =
      timers (m.Update (Msg.TimeoutMsg ID)).1.mode := by
  have ec := wrap64_succ m.completed hc1 hc2
  have et := wrap64_succ m.total ht1 ht2
  by_cases hc : m.completed + 1 > 3
  · simp [model.Update, h, hc, timers, ec, et]
  · simp [model.Update, h, hc, timers, ec, et]

/-- Witness of C1, amended, at the model built by `main`. -/
theorem focus_expiry_witness :
    initialModel.mode = FocusMode ∧
    (initialModel.Update (Msg.TimeoutMsg 1)).1.total = initialModel.total + 1 ∧
    (initialModel.Update (Msg.TimeoutMsg 1)).1.mode = ShortBreakMode ∧
    (initialModel.Update (Msg.TimeoutMsg 1)).1.completed = 1 :=
  ⟨rfl,
    (focus_expiry initialModel 1 rfl (by decide) (by decide) (by decide) (by decide)).1,
    ((focus_expiry initialModel 1 rfl (by decide) (by decide) (by decide)
      (by decide)).2.2.1 (by decide)).1,
    ((focus_expiry initialModel 1 rfl (by decide) (by decide) (by decide)
      (by decide)).2.2.1 (by decide)).2.1⟩

/-- C2: when the phase is ShortBreak or LongBreak, handling `timer.TimeoutMsg` yields
phase Focus with `Timeout` equal to 45 minutes and leaves `completed` and `total` as
they were. -/
theorem break_expiry (m : model) (ID : Int)
    (h : m.mode = ShortBreakMode ∨ m.mode = LongBreakMode) :
    (m.Update (Msg.TimeoutMsg ID)).1.mode = FocusMode ∧
    (m.Update (Msg.TimeoutMsg ID)).1.timer.Timeout = 45 * Minute ∧
    (m.Update (Msg.TimeoutMsg ID)).1.timer.Timeout = timers FocusMode ∧
    (m.Update (Msg.TimeoutMsg ID)).1.completed = m.completed ∧
    (m.Update (Msg.TimeoutMsg ID)).1.total = m.total := by
  rcases h with h | h <;> simp [model.Update, h, timers]

/-- Witness of C2 at a ShortBreak state with both counters equal to 1. -/
theorem break_expiry_witness :
    (initialModel.Update (Msg.TimeoutMsg 1)).1.mode = ShortBreakMode ∧
    ((initialModel.Update (Msg.TimeoutMsg 1)).1.Update (Msg.TimeoutMsg 1)).1.mode = FocusMode ∧
    ((initialModel.Update (Msg.TimeoutMsg 1)).1.Update (Msg.TimeoutMsg 1)).1.total = 1 :=
  ⟨by decide,
    (break_expiry (initialModel.Update (Msg.TimeoutMsg 1)).1 1 (Or.inl (by decide))).1,
    (break_expiry (initialModel.Update (Msg.TimeoutMsg 1)).1 1 (Or.inl (by decide))).2.2.2.2⟩

/-! ## Commands from the keyboard -/

/-- C3: a key that `Update` routes to the reset branch (it does not match the quit binding
and matches the reset binding) changes the model in the field `timer.Timeout` only, which
becomes the nominal duration of the current phase; phase, the `running` flag and both
counters are as before, `Running()` is as before when the countdown had not reached zero,
and handling the same key again gives the same model. -/
theorem reset_sets_nominal (m : model) (k : String)
    (hq : key.Matches k [m.keymap.quit] = false)
    (hr : key.Matches k [m.keymap.reset] = true) :
    (m.Update (Msg.KeyMsg k)).1 = { m with timer := { m.timer with Timeout := timers m.mode } } ∧
    (m.Update (Msg.KeyMsg k)).1.timer.Timeout = timers m.mode ∧
    (m.Update (Msg.KeyMsg k)).1.mode = m.mode ∧
    (m.Update (Msg.KeyMsg k)).1.timer.running = m.timer.running ∧
    (m.Update (Msg.KeyMsg k)).1.completed = m.completed ∧
    (m.Update (Msg.KeyMsg k)).1.total = m.total ∧
    (0 < m.timer.Timeout → (m.Update (Msg.KeyMsg k)).1.timer.Running = m.timer.Running) ∧
    ((m.Update (Msg.KeyMsg k)).1.Update (Msg.KeyMsg k)).1 = (m.Update (Msg.KeyMsg k)).1 := by
  have h1 : (m.Update (Msg.KeyMsg k)).1
      = { m with timer := { m.timer with Timeout := timers m.mode } } := by
    simp [model.Update, hq, hr]
  have h2 : ({ m with timer := { m.timer with Timeout := timers m.mode } } : model).Update
      (Msg.KeyMsg k) = ({ m with timer := { m.timer with Timeout := timers m.mode } }, Cmd.nil) := by
    simp [model.Update, hq, hr]
  refine ⟨h1, ?_, ?_, ?_, ?_, ?_, ?_, ?_⟩
  · rw [h1]
  · rw [h1]
  · rw [h1]
  · rw [h1]
  · rw [h1]
  · intro hpos
    have hn : 0 < timers m.mode := by cases m.mode <;> decide
    rw [h1]
    have e1 : decide (timers m.mode ≤ 0) = false := decide_eq_false (not_le.mpr hn)
    have e2 : decide (m.timer.Timeout ≤ 0) = false := decide_eq_false (not_le.mpr hpos)
    simp [timer.Model.Running, timer.Model.Timedout, e1, e2]
  · rw [h1, h2]

/-- Witness of C3: the key "r" in a running ShortBreak state with 7 seconds left. -/
theorem reset_sets_nominal_witness :
    ({ initialModel with
        mode := ShortBreakMode
        timer := { initialModel.timer with Timeout := 7 * Second } }.Update
      (Msg.KeyMsg "r")).1.timer.Timeout = 5 * Minute :=
  (reset_sets_nominal
    { initialModel with
        mode := ShortBreakMode
        timer := { initialModel.timer with Timeout := 7 * Second } }
    "r" (by decide) (by decide)).2.1

/-- C4, as stated, fails at the largest value of a counter: in phase Focus with
`total = MaxInt64` an expiry leaves `total = MinInt64`, so `total` has decreased; with
`completed = MaxInt64` an expiry leaves `completed = MinInt64`, which is not
`completed + 1`. -/
theorem total_decreases_at_max :
    totalAtMax.total = MaxInt64 ∧
    (totalAtMax.Update (Msg.TimeoutMsg 1)).1.total = MinInt64 ∧
    (totalAtMax.Update (Msg.TimeoutMsg 1)).1.total < totalAtMax.total ∧
    (completedAtMax.Update (Msg.TimeoutMsg 1)).1.completed = MinInt64 ∧
    (completedAtMax.Update (Msg.TimeoutMsg 1)).1.completed ≠ completedAtMax.completed + 1 := by
  decide

/-- C4, amended: a message other than `timer.TimeoutMsg` leaves phase, `completed` and
`total` as they were, and the phase changes on an expiry only.  For every message,
`total` does not decrease when it is an `int` below `MaxInt64`; and `completed` either
stays, or is set by an expiry in phase Focus to the machine increment, which is
`completed + 1` when `completed` is an `int` below `MaxInt64`, or is set to 0 by an
expiry that enters LongBreak. -/
theorem non_expiry_frame (m : model) (msg : Msg) :
    (msg.isTimeout = false →
      (m.Update msg).1.mode = m.mode ∧
      (m.Update msg).1.completed = m.completed ∧
      (m.Update msg).1.total = m.total) ∧
    (MinInt64 ≤ m.total → m.total < MaxInt64 → m.total ≤ (m.Update msg).1.total) ∧
    ((m.Update msg).1.completed = m.completed ∨
      (msg.isTimeout = true ∧ m.mode = FocusMode ∧
        (m.Update msg).1.completed = wrap64 (m.completed + 1) ∧
        (MinInt64 ≤ m.completed → m.completed < MaxInt64 →
          (m.Update msg).1.completed = m.completed + 1)) ∨
      (msg.isTimeout = true ∧ (m.Update msg).1.mode = LongBreakMode ∧
        m.mode ≠ LongBreakMode ∧ (m.Update msg).1.completed = 0)) ∧
    ((m.Update msg).1.mode ≠ m.mode → msg.isTimeout = true) := by
  cases msg with
  | TickMsg ID t tag => simp [model.Update, Msg.isTimeout]
  | StartStopMsg ID r => simp [model.Update, Msg.isTimeout]
  | TimeoutMsg ID =>
    by_cases hm : m.mode = FocusMode
    · refine ⟨by simp [Msg.isTimeout], ?_, ?_, by simp [Msg.isTimeout]⟩
      · intro h1 h2
        have et := wrap64_succ m.total h1 h2
        by_cases hc : wrap64 (m.completed + 1) > 3
        · simp [model.Update, hm, hc, et]
        · simp [model.Update, hm, hc, et]
      · by_cases hc : wrap64 (m.completed + 1) > 3
        · right; right
          simp [model.Update, Msg.isTimeout, hm, hc]
        · right; left
          have e : (m.Update (Msg.TimeoutMsg ID)).1.completed = wrap64 (m.completed + 1) := by
            simp [model.Update, hm, hc]
          exact ⟨rfl, hm, e, fun h1 h2 => by rw [e, wrap64_succ m.completed h1 h2]⟩
    · simp [model.Update, Msg.isTimeout, hm]
  | KeyMsg k =>
    by_cases hq : key.Matches k [m.keymap.quit] = true
    · simp [model.Update, Msg.isTimeout, hq]
    · by_cases hr : key.Matches k [m.keymap.reset] = true
      · simp [model.Update, Msg.isTimeout, hq, hr]
      · by_cases hs : key.Matches k [m.keymap.start, m.keymap.stop] = true
        · simp [model.Update, Msg.isTimeout, hq, hr, hs]
        · simp [model.Update, Msg.isTimeout, hq, hr, hs]
  | other => simp [model.Update, Msg.isTimeout]

/-- Witness of C4: the key "s" handled in the model built by `main`. -/
theorem non_expiry_frame_witness :
    (initialModel.Update (Msg.KeyMsg "s")).1.mode = FocusMode ∧
    (initialModel.Update (Msg.KeyMsg "s")).1.completed = 0 ∧
    (initialModel.Update (Msg.KeyMsg "s")).1.total = 0 :=
  (non_expiry_frame initialModel (Msg.KeyMsg "s")).1 rfl

/-! ## The last tick and the expiry are two steps -/

/-- C5, as stated, fails: in a running Focus countdown with one second left, the tick of
the model's timer returns a model with `Timeout` 0 whose phase is still Focus. -/
theorem tick_to_zero_not_advanced :
    lastSecond.timer.Running = true ∧
    lastSecond.mode = FocusMode ∧
    (lastSecond.Update (Msg.TickMsg 1 false 0)).1.timer.Timeout = 0 ∧
    (lastSecond.Update (Msg.TickMsg 1 false 0)).1.mode = FocusMode ∧
    (lastSecond.Update (Msg.TickMsg 1 false 0)).1.timer.Timeout ≠
      timers (lastSecond.Update (Msg.TickMsg 1 false 0)).1.mode := by
  decide

/-- C5, amended: when the timer is running and accepts a tick that brings `Timeout` to
exactly 0, `Update` returns the model with `Timeout` 0 and nothing else changed (phase and
counters as before) together with a command that delivers `timer.TimeoutMsg`; handling
that message in the returned model advances the phase and sets `Timeout` to the nominal
duration of the new phase. -/
theorem tick_to_zero_then_expiry (m : model) (ID tag : Int) (t : Bool)
    (hrun : m.timer.Running = true)
    (hid : ¬ (ID ≠ 0 ∧ ID ≠ m.timer.id))
    (htag : ¬ (tag > 0 ∧ tag ≠ m.timer.tag))
    (hz : m.timer.Timeout - m.timer.Interval = 0) :
    (m.Update (Msg.TickMsg ID t tag)).1 = { m with timer := { m.timer with Timeout := 0 } } ∧
    (m.Update (Msg.TickMsg ID t tag)).1.mode = m.mode ∧
    (m.Update (Msg.TickMsg ID t tag)).1.completed = m.completed ∧
    (m.Update (Msg.TickMsg ID t tag)).1.total = m.total ∧
    Msg.TimeoutMsg m.timer.id ∈ (m.Update (Msg.TickMsg ID t tag)).2.msgs ∧
    ((m.Update (Msg.TickMsg ID t tag)).1.Update (Msg.TimeoutMsg m.timer.id)).1.mode ≠ m.mode ∧
    ((m.Update (Msg.TickMsg ID t tag)).1.Update (Msg.TimeoutMsg m.timer.id)).1.timer.Timeout =
      timers ((m.Update (Msg.TickMsg ID t tag)).1.Update (Msg.TimeoutMsg m.timer.id)).1.mode := by
  have h1 : m.Update (Msg.TickMsg ID t tag) =
      ({ m with timer := { m.timer with Timeout := 0 } },
        Cmd.Batch (Cmd.Tick m.timer.Interval (Msg.TickMsg m.timer.id true m.timer.tag))
          (Cmd.emit (Msg.TimeoutMsg m.timer.id))) := by
    have w0 : wrap64 0 = 0 := by decide
    simp only [model.Update, timer.Model.Update, hrun, hid, htag, hz, timer.Model.tick,
      timer.Model.timedout, timer.Model.Timedout, w0]
    simp
  rw [h1]
  refine ⟨rfl, rfl, rfl, rfl, ?_, ?_, ?_⟩
  · simp [Cmd.msgs]
  · by_cases hm : m.mode = FocusMode
    · by_cases hc : wrap64 (m.completed + 1) > 3
      · simp [model.Update, hm, hc]
      · simp [model.Update, hm, hc]
    · simp [model.Update, hm]
      exact fun h => hm h.symm
  · simp [model.Update]

/-- Witness of C5, amended, at a running Focus countdown with one second left. -/
theorem tick_to_zero_then_expiry_witness :
    (lastSecond.Update (Msg.TickMsg 1 false 0)).1.mode = FocusMode ∧
    ((lastSecond.Update (Msg.TickMsg 1 false 0)).1.Update (Msg.TimeoutMsg 1)).1.mode ≠
      FocusMode :=
  ⟨(tick_to_zero_then_expiry lastSecond 1 0 false (by decide) (by decide) (by decide)
      (by decide)).2.1,
    (tick_to_zero_then_expiry lastSecond 1 0 false (by decide) (by decide) (by decide)
      (by decide)).2.2.2.2.2.1⟩

/-! ## Stopping after an expiry -/

/-- C6, as stated, fails: in the model returned by the tick that brought a running Focus
countdown to zero, handling the expiry returns a model in phase ShortBreak whose `running`
flag is still true, for which `Running()` is true, and in which the stop binding is the
enabled one and the start binding is not. -/
theorem expiry_state_still_running :
    atZero.timer.running = true ∧
    atZero.timer.Timeout = 0 ∧
    (atZero.Update (Msg.TimeoutMsg 1)).1.mode = ShortBreakMode ∧
    (atZero.Update (Msg.TimeoutMsg 1)).1.timer.running = true ∧
    (atZero.Update (Msg.TimeoutMsg 1)).1.timer.Running = true ∧
    (atZero.Update (Msg.TimeoutMsg 1)).1.keymap.stop.Enabled = true ∧
    (atZero.Update (Msg.TimeoutMsg 1)).1.keymap.start.Enabled = false := by
  decide

/-- C6, amended: handling an expiry leaves the `running` flag of the timer as it was and
returns the stop command, which delivers `timer.StartStopMsg` with `running = false` for
the model's timer.  In the model returned by handling that message the flag is false,
`Running()` is false, the start binding is not disabled and the stop binding is, phase,
`Timeout` and counters are those of the expiry step, and a tick handled there leaves
the model as it is. -/
theorem expiry_stops_by_command (m : model) (ID : Int) :
    (m.Update (Msg.TimeoutMsg ID)).1.timer.running = m.timer.running ∧
    (m.Update (Msg.TimeoutMsg ID)).2 = Cmd.emit (Msg.StartStopMsg m.timer.id false) ∧
    (((m.Update (Msg.TimeoutMsg ID)).1.Update
        (Msg.StartStopMsg m.timer.id false)).1.timer.running = false ∧
      ((m.Update (Msg.TimeoutMsg ID)).1.Update
        (Msg.StartStopMsg m.timer.id false)).1.timer.Running = false ∧
      ((m.Update (Msg.TimeoutMsg ID)).1.Update
        (Msg.StartStopMsg m.timer.id false)).1.keymap.start.disabled = false ∧
      ((m.Update (Msg.TimeoutMsg ID)).1.Update
        (Msg.StartStopMsg m.timer.id false)).1.keymap.stop.disabled = true ∧
      ((m.Update (Msg.TimeoutMsg ID)).1.Update
        (Msg.StartStopMsg m.timer.id false)).1.mode = (m.Update (Msg.TimeoutMsg ID)).1.mode ∧
      ((m.Update (Msg.TimeoutMsg ID)).1.Update
        (Msg.StartStopMsg m.timer.id false)).1.timer.Timeout =
          (m.Update (Msg.TimeoutMsg ID)).1.timer.Timeout ∧
      ((m.Update (Msg.TimeoutMsg ID)).1.Update
        (Msg.StartStopMsg m.timer.id false)).1.completed =
          (m.Update (Msg.TimeoutMsg ID)).1.completed ∧
      ((m.Update (Msg.TimeoutMsg ID)).1.Update
        (Msg.StartStopMsg m.timer.id false)).1.total = (m.Update (Msg.TimeoutMsg ID)).1.total ∧
      ∀ (ID2 tag : Int) (t : Bool),
        (((m.Update (Msg.TimeoutMsg ID)).1.Update
          (Msg.StartStopMsg m.timer.id false)).1.Update (Msg.TickMsg ID2 t tag)).1 =
        ((m.Update (Msg.TimeoutMsg ID)).1.Update (Msg.StartStopMsg m.timer.id false)).1) := by
  have hrun : (m.Update (Msg.TimeoutMsg ID)).1.timer.running = m.timer.running := by
    rw [(expiry_timer m ID).1]
  have hid : (m.Update (Msg.TimeoutMsg ID)).1.timer.id = m.timer.id := by
    rw [(expiry_timer m ID).1]
  refine ⟨hrun, (expiry_timer m ID).2, ?_⟩
  generalize (m.Update (Msg.TimeoutMsg ID)).1 = x at hid
  rw [← hid]
  refine ⟨?_, ?_, ?_, ?_, ?_, ?_, ?_, ?_, ?_⟩ <;>
    simp [model.Update, timer.Model.Update, timer.Model.Running, key.Binding.SetEnabled]

/-! ## Quit -/

/-- C7, as stated, fails: after launch, start, one tick and the quit key the model has
`quitting = true` and 44 minutes 59 seconds left; a tick handled then still decrements
`Timeout`, an expiry still advances the phase and the counters, and the reset key still
restores `Timeout`. -/
theorem quitting_state_not_frozen :
    afterQuit.quitting = true ∧
    afterQuit.mode = FocusMode ∧
    afterQuit.timer.Timeout = 45 * Minute - Second ∧
    (afterQuit.Update (Msg.TickMsg 1 false 0)).1.timer.Timeout = 45 * Minute - 2 * Second ∧
    (afterQuit.Update (Msg.TimeoutMsg 1)).1.mode = ShortBreakMode ∧
    (afterQuit.Update (Msg.TimeoutMsg 1)).1.total = afterQuit.total + 1 ∧
    (afterQuit.Update (Msg.TimeoutMsg 1)).1.completed = afterQuit.completed + 1 ∧
    (afterQuit.Update (Msg.KeyMsg "r")).1.timer.Timeout = 45 * Minute := by
  decide

/-- C7, amended: a key that matches the quit binding changes the model in the field
`quitting` only, which becomes true, and returns the command `tea.Quit`; phase, `Timeout`,
the `running` flag and both counters are as before.  `quitting` stays true under every
later message.  `Update` does not consult `quitting`: a message handled in a model with
`quitting = true` gives the same command and the same phase, timer, counters and key map
as in the same model with `quitting = false`. -/
theorem quit_sets_flag_only (m : model) (k : String) (msg : Msg)
    (hq : key.Matches k [m.keymap.quit] = true) :
    m.Update (Msg.KeyMsg k) = ({ m with quitting := true }, Cmd.Quit) ∧
    (m.Update (Msg.KeyMsg k)).1.mode = m.mode ∧
    (m.Update (Msg.KeyMsg k)).1.timer.Timeout = m.timer.Timeout ∧
    (m.Update (Msg.KeyMsg k)).1.timer.running = m.timer.running ∧
    (m.Update (Msg.KeyMsg k)).1.completed = m.completed ∧
    (m.Update (Msg.KeyMsg k)).1.total = m.total ∧
    ((m.Update (Msg.KeyMsg k)).1.Update msg).1.quitting = true ∧
    ((m.Update (Msg.KeyMsg k)).1.Update msg).2 = ({ m with quitting := false }.Update msg).2 ∧
    ((m.Update (Msg.KeyMsg k)).1.Update msg).1.mode =
      ({ m with quitting := false }.Update msg).1.mode ∧
    ((m.Update (Msg.KeyMsg k)).1.Update msg).1.timer =
      ({ m with quitting := false }.Update msg).1.timer ∧
    ((m.Update (Msg.KeyMsg k)).1.Update msg).1.completed =
      ({ m with quitting := false }.Update msg).1.completed ∧
    ((m.Update (Msg.KeyMsg k)).1.Update msg).1.total =
      ({ m with quitting := false }.Update msg).1.total ∧
    ((m.Update (Msg.KeyMsg k)).1.Update msg).1.keymap =
      ({ m with quitting := false }.Update msg).1.keymap := by
  have h1 : m.Update (Msg.KeyMsg k) = ({ m with quitting := true }, Cmd.Quit) := by
    simp [model.Update, hq]
  rw [h1]
  refine ⟨rfl, rfl, rfl, rfl, rfl, rfl, ?_⟩
  cases msg with
  | TickMsg ID t tag => simp [model.Update]
  | StartStopMsg ID r => simp [model.Update]
  | TimeoutMsg ID =>
    by_cases hm : m.mode = FocusMode
    · by_cases hc : wrap64 (m.completed + 1) > 3
      · simp [model.Update, hm, hc]
      · simp [model.Update, hm, hc]
    · simp [model.Update, hm]
  | KeyMsg k2 =>
    by_cases hq2 : key.Matches k2 [m.keymap.quit] = true
    · simp [model.Update, hq2]
    · by_cases hr : key.Matches k2 [m.keymap.reset] = true
      · simp [model.Update, hq2, hr]
      · by_cases hs : key.Matches k2 [m.keymap.start, m.keymap.stop] = true
        · simp [model.Update, hq2, hr, hs]
        · simp [model.Update, hq2, hr, hs]
  | other => simp [model.Update]

/-- Witness of C7, amended: the key "q" in the model built by `main`, then a tick. -/
theorem quit_sets_flag_only_witness :
    initialModel.Update (Msg.KeyMsg "q") =
      ({ initialModel with quitting := true }, Cmd.Quit) ∧
    ((initialModel.Update (Msg.KeyMsg "q")).1.Update (Msg.TickMsg 1 false 0)).1.quitting
      = true :=
  ⟨(quit_sets_flag_only initialModel "q" (Msg.TickMsg 1 false 0) (by decide)).1,
    (quit_sets_flag_only initialModel "q" (Msg.TickMsg 1 false 0) (by decide)).2.2.2.2.2.2.1⟩

/-! ## Rendering the remaining time -/

/-- On a non-negative integer `%02d` is the zero-padded decimal of width two. -/
theorem Sprintf02d_of_nonneg (i : Int) (h : 0 ≤ i) : Sprintf02d i = zeroPadded 2 i.toNat := by
  obtain ⟨n, rfl⟩ := Int.eq_ofNat_of_zero_le h
  simp [Sprintf02d, zeroPadded]

/-- The minutes and seconds computed by `fmtDuration` on a non-negative duration. -/
theorem fmtDuration_fields (d : Duration) (h : 0 ≤ d) :
    0 ≤ Int.tdiv d Minute ∧
    (Int.tdiv d Minute).toNat = d.toNat / 1000000000 / 60 ∧
    0 ≤ Int.tdiv (d - Int.tdiv d Minute * Minute) Second ∧
    (Int.tdiv (d - Int.tdiv d Minute * Minute) Second).toNat = d.toNat / 1000000000 % 60 := by
  obtain ⟨n, rfl⟩ := Int.eq_ofNat_of_zero_le h
  have hM : (0 : Int) ≤ Minute := by decide
  have hS : (0 : Int) ≤ Second := by decide
  have e1 : Int.tdiv (n : Int) Minute = (n : Int) / 60000000000 := by
    rw [Int.tdiv_eq_ediv (Int.ofNat_nonneg n) hM]; rfl
  have hr : (0 : Int) ≤ (n : Int) - (n : Int) / 60000000000 * Minute := by
    have : Minute = 60000000000 := by decide
    rw [this]; omega
  have e2 : Int.tdiv ((n : Int) - (n : Int) / 60000000000 * Minute) Second
      = ((n : Int) - (n : Int) / 60000000000 * 60000000000) / 1000000000 := by
    rw [Int.tdiv_eq_ediv hr hS]; rfl
  rw [e1, e2]
  refine ⟨by omega, by omega, by omega, by omega⟩

/-- C8: for a non-negative duration `d`, with `n` its number of whole seconds,
`fmtDuration d` is the decimal of `n / 60` zero-padded to at least two digits, a colon,
and the decimal of `n % 60` zero-padded to exactly two digits, with `n % 60` below 60;
45 minutes gives "45:00", 5 minutes "05:00" and 61 seconds "01:01". -/
theorem fmtDuration_minutes_seconds (d : Duration) (h : 0 ≤ d) :
    fmtDuration d = specFormat d ∧
    fmtDuration d =
      zeroPadded 2 (d.toNat / 1000000000 / 60) ++ ":" ++
        zeroPadded 2 (d.toNat / 1000000000 % 60) ∧
    d.toNat / 1000000000 % 60 < 60 ∧
    2 ≤ (zeroPadded 2 (d.toNat / 1000000000 / 60)).length ∧
    (zeroPadded 2 (d.toNat / 1000000000 % 60)).length = 2 ∧
    fmtDuration (45 * Minute) = "45:00" ∧
    fmtDuration (5 * Minute) = "05:00" ∧
    fmtDuration (61 * Second) = "01:01" := by
  obtain ⟨h1, h2, h3, h4⟩ := fmtDuration_fields d h
  have hf : fmtDuration d = specFormat d := by
    simp only [fmtDuration, specFormat]
    rw [Sprintf02d_of_nonneg _ h1, Sprintf02d_of_nonneg _ h3, h2, h4]
  have hlt : d.toNat / 1000000000 % 60 < 60 := Nat.mod_lt _ (by decide)
  refine ⟨hf, hf, hlt, ?_, ?_, by decide, by decide, by decide⟩
  · simp only [zeroPadded, String.length, List.length_append, List.length_replicate]
    omega
  · generalize d.toNat / 1000000000 % 60 = k at hlt
    interval_cases k <;> decide

/-- Witness of C8 at 61 seconds. -/
theorem fmtDuration_minutes_seconds_witness :
    fmtDuration (61 * Second) = specFormat (61 * Second) :=
  (fmtDuration_minutes_seconds (61 * Second) (by decide)).1

/-! ## The rotation of phases -/

/-- Incrementing a wrapped value and wrapping gives the wrapped increment. -/
theorem wrap64_wrap64_succ (x : Int) : wrap64 (wrap64 x + 1) = wrap64 (x + 1) := by
  unfold wrap64
  omega

/-- Phase and counters after one expiry, in terms of the model before it. -/
theorem expire_effect (m : model) :
    (m.mode = FocusMode → wrap64 (m.completed + 1) > 3 →
      (expire m).mode = LongBreakMode ∧ (expire m).completed = 0 ∧
      (expire m).total = wrap64 (m.total + 1)) ∧
    (m.mode = FocusMode → ¬ wrap64 (m.completed + 1) > 3 →
      (expire m).mode = ShortBreakMode ∧ (expire m).completed = wrap64 (m.completed + 1) ∧
      (expire m).total = wrap64 (m.total + 1)) ∧
    (m.mode ≠ FocusMode →
      (expire m).mode = FocusMode ∧ (expire m).completed = m.completed ∧
      (expire m).total = m.total) := by
  refine ⟨?_, ?_, ?_⟩
  · intro hm hc; simp [expire, model.Update, hm, hc]
  · intro hm hc; simp [expire, model.Update, hm, hc]
  · intro hm; simp [expire, model.Update, hm]

/-- After an even number `2 * j` of expiries from the model built by `main` the phase is
Focus, `total` is `j` wrapped to 64 bits and `completed` is `j % 4`; the next expiry enters
LongBreak when `j + 1` is a multiple of 4 and ShortBreak otherwise. -/
theorem even_expiries (j : Nat) :
    (expiries (2 * j) initialModel).mode = FocusMode ∧
    (expiries (2 * j) initialModel).total = wrap64 j ∧
    (expiries (2 * j) initialModel).completed = (j : Int) % 4 ∧
    (expiries (2 * j + 1) initialModel).mode =
      (if (j + 1) % 4 = 0 then LongBreakMode else ShortBreakMode) ∧
    (expiries (2 * j + 1) initialModel).total = wrap64 ((j : Int) + 1) := by
  have next : ∀ s : model, s.mode = FocusMode → ∀ i : Nat, s.total = wrap64 i →
      s.completed = (i : Int) % 4 →
      (expire s).mode = (if (i + 1) % 4 = 0 then LongBreakMode else ShortBreakMode) ∧
      (expire s).total = wrap64 ((i : Int) + 1) ∧
      (expire s).completed = ((i : Int) + 1) % 4 := by
    intro s h1 i h2 h3
    have hw : wrap64 (s.completed + 1) = s.completed + 1 := by
      unfold wrap64; omega
    have ht : wrap64 (s.total + 1) = wrap64 ((i : Int) + 1) := by
      rw [h2]; exact wrap64_wrap64_succ _
    by_cases hc : wrap64 (s.completed + 1) > 3
    · obtain ⟨a1, a2, a3⟩ := (expire_effect s).1 h1 hc
      have : (i + 1) % 4 = 0 := by omega
      refine ⟨by rw [a1]; simp [this], by rw [a3, ht], by rw [a2]; omega⟩
    · obtain ⟨a1, a2, a3⟩ := (expire_effect s).2.1 h1 hc
      have : ¬ (i + 1) % 4 = 0 := by omega
      refine ⟨by rw [a1]; simp [this], by rw [a3, ht], by rw [a2, hw]; omega⟩
  have even : ∀ i : Nat, (expiries (2 * i) initialModel).mode = FocusMode ∧
      (expiries (2 * i) initialModel).total = wrap64 i ∧
      (expiries (2 * i) initialModel).completed = (i : Int) % 4 := by
    intro i
    induction i with
    | zero => decide
    | succ i ih =>
      obtain ⟨h1, h2, h3⟩ := ih
      obtain ⟨b1, b2, b3⟩ := next _ h1 i h2 h3
      have e : expiries (2 * (i + 1)) initialModel
          = expire (expire (expiries (2 * i) initialModel)) := rfl
      have hne : (expire (expiries (2 * i) initialModel)).mode ≠ FocusMode := by
        rw [b1]; split <;> simp
      obtain ⟨a1, a2, a3⟩ := (expire_effect (expire (expiries (2 * i) initialModel))).2.2 hne
      rw [e]
      refine ⟨a1, ?_, ?_⟩
      · rw [a3, b2]; push_cast; rfl
      · rw [a2, b3]; push_cast; rfl
  obtain ⟨h1, h2, h3⟩ := even j
  obtain ⟨b1, b2, _⟩ := next _ h1 j h2 h3
  exact ⟨h1, h2, h3, b1, b2⟩

/-- C9, as stated, fails at `k = 2 ^ 63`: right after that Focus expiry, which is expiry
number `2 * 2 ^ 63 - 1`, the `int` counter `total` has wrapped to `MinInt64` and is not
`k`. -/
theorem total_wraps_at_two_pow_63 :
    (expiries (2 * 9223372036854775808 - 1) initialModel).total = MinInt64 ∧
    (expiries (2 * 9223372036854775808 - 1) initialModel).total
      ≠ ((9223372036854775808 : Nat) : Int) := by
  have e : 2 * 9223372036854775808 - 1 = 2 * 9223372036854775807 + 1 := by norm_num
  have h := (even_expiries 9223372036854775807).2.2.2.2
  have w : wrap64 (((9223372036854775807 : Nat) : Int) + 1) = MinInt64 := by decide
  rw [e, h, w]
  exact ⟨rfl, by decide⟩

/-- C9, amended: from the model built by `main` (phase Focus, 45 minutes, both counters
0) under consecutive expiries, for every `k ≥ 1` the `k`-th Focus expiry, which is expiry
number `2 * k - 1` and starts in phase Focus, leads to LongBreak exactly when `k` is a
multiple of 4 and to ShortBreak otherwise; right after it `total = k` as long as `k` is at
most `MaxInt64`.  After 7 expiries the model is in LongBreak with 15 minutes,
`completed = 0` and `total = 4`; after the first it is in ShortBreak with 5 minutes and
both counters 1. -/
theorem kth_focus_expiry (k : Nat) (hk : 1 ≤ k) :
    (expiries (2 * k - 2) initialModel).mode = FocusMode ∧
    ((expiries (2 * k - 1) initialModel).mode = LongBreakMode ↔ k % 4 = 0) ∧
    ((expiries (2 * k - 1) initialModel).mode = ShortBreakMode ↔ k % 4 ≠ 0) ∧
    ((k : Int) ≤ MaxInt64 → (expiries (2 * k - 1) initialModel).total = k) ∧
    (initialModel.mode = FocusMode ∧ initialModel.timer.Timeout = 45 * Minute ∧
      initialModel.completed = 0 ∧ initialModel.total = 0) ∧
    ((expiries 7 initialModel).mode = LongBreakMode ∧
      (expiries 7 initialModel).timer.Timeout = 15 * Minute ∧
      fmtDuration (expiries 7 initialModel).timer.Timeout = "15:00" ∧
      (expiries 7 initialModel).completed = 0 ∧
      (expiries 7 initialModel).total = 4) ∧
    ((expiries 1 initialModel).mode = ShortBreakMode ∧
      (expiries 1 initialModel).timer.Timeout = 5 * Minute ∧
      fmtDuration (expiries 1 initialModel).timer.Timeout = "05:00" ∧
      (expiries 1 initialModel).completed = 1 ∧
      (expiries 1 initialModel).total = 1) := by
  obtain ⟨j, rfl⟩ : ∃ j, k = j + 1 := ⟨k - 1, by omega⟩
  obtain ⟨h1, _, _, h4, h5⟩ := even_expiries j
  have e1 : 2 * (j + 1) - 2 = 2 * j := by omega
  have e2 : 2 * (j + 1) - 1 = 2 * j + 1 := by omega
  rw [e1, e2, h4]
  refine ⟨h1, ?_, ?_, ?_, by decide, by decide, by decide⟩
  · by_cases hd : (j + 1) % 4 = 0 <;> simp [hd]
  · by_cases hd : (j + 1) % 4 = 0 <;> simp [hd]
  · intro hb
    rw [h5]
    push_cast at hb ⊢
    exact wrap64_of_range _ (by unfold MinInt64; omega) hb

/-- Witness of C9, amended, at `k = 4`. -/
theorem kth_focus_expiry_witness :
    ((expiries (2 * 4 - 1) initialModel).mode = LongBreakMode ↔ 4 % 4 = 0) ∧
    (expiries (2 * 4 - 1) initialModel).total = ((4 : Nat) : Int) :=
  ⟨(kth_focus_expiry 4 (by decide)).2.1, (kth_focus_expiry 4 (by decide)).2.2.2.1 (by decide)⟩

/-! ## The invariant of the counters -/

/-- One step of `Update` preserves the invariant. -/
theorem CounterInvariant_step (m : model) (msg : Msg) (h : CounterInvariant m) :
    CounterInvariant (m.Update msg).1 := by
  obtain ⟨h2, h3, h4⟩ := h
  cases msg with
  | TickMsg ID t tag => exact ⟨h2, h3, h4⟩
  | StartStopMsg ID r => exact ⟨h2, h3, h4⟩
  | TimeoutMsg ID =>
    have hw : wrap64 (m.completed + 1) = m.completed + 1 := by
      unfold wrap64; omega
    have ht : wrap64 (m.total + 1) % 4 = (m.total + 1) % 4 := by
      unfold wrap64; omega
    by_cases hm : m.mode = FocusMode
    · by_cases hc : wrap64 (m.completed + 1) > 3
      · simp only [CounterInvariant, model.Update, hm, hc, if_true]
        simp
        omega
      · simp only [CounterInvariant, model.Update, hm, hc, if_true, if_false]
        simp
        omega
    · simp only [CounterInvariant, model.Update, hm, if_false]
      simp
      exact h2
  | KeyMsg k =>
    by_cases hq : key.Matches k [m.keymap.quit] = true
    · simp only [CounterInvariant, model.Update, hq, if_true]
      exact ⟨h2, h3, h4⟩
    · by_cases hr : key.Matches k [m.keymap.reset] = true
      · simp only [CounterInvariant, model.Update, hq, hr, if_true, if_false]
        exact ⟨h2, h3, h4⟩
      · by_cases hs : key.Matches k [m.keymap.start, m.keymap.stop] = true
        · simp only [CounterInvariant, model.Update, hq, hr, hs, if_true, if_false]
          exact ⟨h2, h3, h4⟩
        · simp only [CounterInvariant, model.Update, hq, hr, hs, if_false]
          exact ⟨h2, h3, h4⟩
  | other => exact ⟨h2, h3, h4⟩

/-- Handling a list of messages preserves the invariant. -/
theorem CounterInvariant_run (msgs : List Msg) (m : model) (h : CounterInvariant m) :
    CounterInvariant (run m msgs) := by
  induction msgs generalizing m with
  | nil => exact h
  | cons msg rest ih => exact ih _ (CounterInvariant_step m msg h)

/-- A message other than an expiry keeps the bound on `total`. -/
theorem TotalWithin_frame (n : Int) (m : model) (msg : Msg) (h : TotalWithin n m)
    (hmsg : msg.isTimeout = false) : TotalWithin n (m.Update msg).1 := by
  cases msg with
  | TickMsg ID t tag => exact h
  | StartStopMsg ID r => exact h
  | TimeoutMsg ID => simp [Msg.isTimeout] at hmsg
  | KeyMsg k =>
    by_cases hq : key.Matches k [m.keymap.quit] = true
    · simp only [model.Update, hq, if_true]
      exact h
    · by_cases hr : key.Matches k [m.keymap.reset] = true
      · simp only [model.Update, hq, hr, if_true, if_false]
        exact h
      · by_cases hs : key.Matches k [m.keymap.start, m.keymap.stop] = true
        · simp only [model.Update, hq, hr, hs, if_true, if_false]
          exact h
        · simp only [model.Update, hq, hr, hs, if_false]
          exact h
  | other => exact h

/-- An expiry adds at most one to a `total` that is below `MaxInt64`. -/
theorem TotalWithin_expiry (n : Int) (m : model) (ID : Int) (h : TotalWithin n m)
    (hn : n < MaxInt64) : TotalWithin (n + 1) (m.Update (Msg.TimeoutMsg ID)).1 := by
  obtain ⟨h1, h2, h3⟩ := h
  have ht : wrap64 (m.total + 1) = m.total + 1 :=
    wrap64_succ _ (by unfold MinInt64; omega) (by omega)
  by_cases hm : m.mode = FocusMode
  · by_cases hc : wrap64 (m.completed + 1) > 3
    · simp only [TotalWithin, model.Update, hm, hc, if_true, ht]
      simp
      omega
    · simp only [TotalWithin, model.Update, hm, hc, if_true, if_false, ht]
      simp
      omega
  · simp only [TotalWithin, model.Update, hm, if_false]
    simp
    omega

/-- Handling a list of messages adds at most the number of its expiry messages to
`total`, as long as the sum stays within `MaxInt64`. -/
theorem TotalWithin_run (msgs : List Msg) (n : Int) (m : model) (h : TotalWithin n m)
    (hn : n + msgs.countP Msg.isTimeout ≤ MaxInt64) :
    TotalWithin (n + msgs.countP Msg.isTimeout) (run m msgs) := by
  induction msgs generalizing n m with
  | nil => simpa using h
  | cons msg rest ih =>
    by_cases hmsg : msg.isTimeout = true
    · have hl : (((msg :: rest).countP Msg.isTimeout : Nat) : Int)
          = (rest.countP Msg.isTimeout : Nat) + 1 := by
        rw [List.countP_cons_of_pos _ _ hmsg]; push_cast; rfl
      rw [hl] at hn ⊢
      obtain ⟨ID, rfl⟩ : ∃ ID, msg = Msg.TimeoutMsg ID := by
        cases msg <;> simp [Msg.isTimeout] at hmsg
        exact ⟨_, rfl⟩
      have h1 := TotalWithin_expiry n m ID h (by omega)
      have h2 := ih (n + 1) _ h1 (by omega)
      have e : n + 1 + ((rest.countP Msg.isTimeout : Nat) : Int)
          = n + (((rest.countP Msg.isTimeout : Nat) : Int) + 1) := by ring
      rw [e] at h2
      exact h2
    · have hl : (msg :: rest).countP Msg.isTimeout = rest.countP Msg.isTimeout :=
        List.countP_cons_of_neg _ _ hmsg
      rw [hl] at hn ⊢
      exact ih n _ (TotalWithin_frame n m msg h (by simpa using hmsg)) hn

/-- Moving the first of `n + 1` expiries to the front. -/
theorem expiries_succ_shift (n : Nat) (m : model) :
    expiries (n + 1) m = expiries n (expire m) := by
  induction n with
  | zero => rfl
  | succ n ih =>
    show expire (expiries (n + 1) m) = expire (expiries n (expire m))
    rw [ih]

/-- Handling `n` expiry messages in a row is `n` consecutive expiries. -/
theorem run_replicate_timeout (n : Nat) (ID : Int) (m : model) :
    run m (List.replicate n (Msg.TimeoutMsg ID)) = expiries n m := by
  induction n generalizing m with
  | zero => rfl
  | succ n ih =>
    rw [List.replicate_succ, expiries_succ_shift]
    exact ih _

end Pomodoro
